import Mathlib

/- Verification development for the SimVestor analytics module
   (modules/analysis.py).  Prices, amounts and derived statistics are
   modelled as exact rationals.  Where the Python/NumPy code can produce
   IEEE NaN (empty aggregations, 0/0, a sample standard deviation over
   fewer than 2 observations), the model uses `Option ℚ`, with `none`
   standing for NaN.  The annualised volatility involves a real square
   root; since `sqrt` is strictly monotone on the nonnegative reals and
   `sqrt 0 = 0`, the model stores the square of the code's volatility
   value (`volatility_sq`), which determines it exactly and turns every
   comparison against a threshold `c` into a comparison against `c ^ 2`.
   Rational division by zero yields 0 in Lean while NumPy yields ±inf;
   theorems therefore carry positivity hypotheses on the prices involved
   except where a negative price (where both semantics agree) suffices. -/

namespace Simvestor

/-- Daily simple returns, `data[close_col].pct_change().dropna()`:
    `r t = close t / close (t-1) - 1`, with the leading NaN dropped. -/
def dailyReturns (close : List ℚ) : List ℚ :=
  List.zipWith (fun p c => c / p - 1) close close.tail

/-- Square of the pandas sample standard deviation (`Series.std()`,
    `ddof = 1`); `none` models the NaN produced on fewer than 2
    observations (denominator `n - ddof = 0`). -/
def sampleVar (xs : List ℚ) : Option ℚ :=
  if xs.length < 2 then none
  else
    let m := xs.sum / (xs.length : ℚ)
    some ((xs.map (fun x => (x - m) ^ 2)).sum / ((xs.length : ℚ) - 1))

/-- `(1 + daily_returns).cumprod()` with accumulator `a`. -/
def cumprodAux (a : ℚ) : List ℚ → List ℚ
  | [] => []
  | r :: rs => (a * (1 + r)) :: cumprodAux (a * (1 + r)) rs

/-- `cumulative = (1 + daily_returns).cumprod()`. -/
def cumprod (rs : List ℚ) : List ℚ := cumprodAux 1 rs

/-- Running maximum continued from an already-seen maximum `m`. -/
def cummaxAux (m : ℚ) : List ℚ → List ℚ
  | [] => []
  | x :: xs => max m x :: cummaxAux (max m x) xs

/-- `rolling_max = cumulative.cummax()`. -/
def cummax : List ℚ → List ℚ
  | [] => []
  | x :: xs => x :: cummaxAux x xs

/-- `Series.min()`; `none` models the NaN returned on an empty series. -/
def minimumQ : List ℚ → Option ℚ
  | [] => none
  | x :: xs => some (xs.foldl min x)

/-- `drawdown = (cumulative - rolling_max) / rolling_max`. -/
def drawdowns (rs : List ℚ) : List ℚ :=
  List.zipWith (fun c m => (c - m) / m) (cumprod rs) (cummax (cumprod rs))

/-- `max_drawdown = drawdown.min() * 100`. -/
def maxDrawdown (rs : List ℚ) : Option ℚ :=
  (minimumQ (drawdowns rs)).map (fun d => d * 100)

/-- The dictionary returned by `calculate_returns`.  `volatility_sq` is
    the square of the code's `volatility` value (see the header comment);
    `none` models NaN in `volatility_sq` and `max_drawdown`. -/
structure ReturnResult where
  initial_investment : ℚ
  final_value : ℚ
  total_return : ℚ
  percent_return : ℚ
  shares : ℚ
  initial_price : ℚ
  final_price : ℚ
  volatility_sq : Option ℚ
  max_drawdown : Option ℚ
  days_invested : ℕ
deriving DecidableEq

/-- `calculate_returns(data, investment_amount)` from modules/analysis.py,
    on the canonical close-price column.  The code returns `None` only
    when the frame is `None`/empty (or has no price column, outside this
    model); otherwise the `try` block runs to completion, since NumPy
    arithmetic on a nonempty float series raises no exception. -/
def calculate_returns (close : List ℚ) (investment_amount : ℚ) :
    Option ReturnResult :=
  match close with
  | [] => none
  | c0 :: _ =>
    let finalPrice := close.getLastD 0
    let shares := investment_amount / c0
    let finalValue := shares * finalPrice
    let r := dailyReturns close
    some
      { initial_investment := investment_amount
        final_value := finalValue
        total_return := finalValue - investment_amount
        percent_return := (finalValue / investment_amount - 1) * 100
        shares := shares
        initial_price := c0
        final_price := finalPrice
        volatility_sq := (sampleVar r).map (fun v => v * 252 * 10000)
        max_drawdown := maxDrawdown r
        days_invested := close.length }

/-- `delta = prices.diff()` without the leading NaN. -/
def deltas (close : List ℚ) : List ℚ :=
  List.zipWith (fun p c => c - p) close close.tail

/-- `gain = delta.where(delta > 0, 0)`: the leading NaN of `diff()` fails
    the `delta > 0` test and is replaced by 0, so for a nonempty series
    the gain series has one entry per record, starting with 0. -/
def gains (close : List ℚ) : List ℚ :=
  match close with
  | [] => []
  | _ :: _ => 0 :: (deltas close).map (fun d => max d 0)

/-- `loss = (-delta.where(delta < 0, 0))`, i.e. `max (-delta) 0`, with the
    same leading 0 as `gains`. -/
def losses (close : List ℚ) : List ℚ :=
  match close with
  | [] => []
  | _ :: _ => 0 :: (deltas close).map (fun d => max (-d) 0)

/-- `xs.rolling(window := k).mean().iloc[-1]`: the mean of the trailing
    `k` entries, NaN (`none`) when fewer than `k` entries exist. -/
def lastWindowMean (k : ℕ) (xs : List ℚ) : Option ℚ :=
  if k ≤ xs.length then some ((xs.drop (xs.length - k)).sum / (k : ℚ))
  else none

/-- `rs = gain / loss; rsi = 100 - 100 / (1 + rs)` under IEEE semantics:
    with `loss = 0` and `gain > 0`, `rs = +inf` and `rsi = 100`; with
    `loss = 0` and `gain = 0`, `rs = 0/0 = NaN` and `rsi = NaN` (`none`).
    The finite branch is exact rational arithmetic. -/
def rsiCombine (g? l? : Option ℚ) : Option ℚ :=
  match g?, l? with
  | some g, some l =>
    if l = 0 then (if g = 0 then none else some 100)
    else some (100 - 100 / (1 + g / l))
  | _, _ => none

/-- `avg_gain` entering the last RSI value: the trailing 14-window
    rolling mean of the gain series. -/
def avgGain (close : List ℚ) : Option ℚ := lastWindowMean 14 (gains close)

/-- `avg_loss` entering the last RSI value. -/
def avgLoss (close : List ℚ) : Option ℚ := lastWindowMean 14 (losses close)

/-- `calculate_rsi(prices).iloc[-1]` from modules/analysis.py. -/
def rsiLast (close : List ℚ) : Option ℚ :=
  rsiCombine (avgGain close) (avgLoss close)

/-- The guard `x if indicators comma MA else 0` of lines 136-138: Python's
    `bool(NaN)` is `True`, so an undefined (NaN) moving average flows into
    the formula and produces NaN; only an exact 0.0 is falsy and yields
    the 0 default. -/
def priceVs (cur : ℚ) (ma : Option ℚ) : Option ℚ :=
  match ma with
  | none => none
  | some m => if m = 0 then some 0 else some ((cur - m) / m * 100)

/-- The indicator fields of `calculate_technical_indicators` that this
    development reasons about.  The Bollinger-band and volume fields are
    not referenced by any claim (the bands involve a floating square
    root) and are omitted. -/
structure Indicators where
  ma20 : Option ℚ
  ma50 : Option ℚ
  ma200 : Option ℚ
  current_price : ℚ
  price_vs_ma20 : Option ℚ
  price_vs_ma50 : Option ℚ
  price_vs_ma200 : Option ℚ
  rsi : Option ℚ
  price_change_20d : ℚ
  price_change_50d : ℚ
deriving DecidableEq

/-- Trend momentum, lines 161-162: `((current_price - close.iloc[-lb]) /
    close.iloc[-lb]) * 100 if len(data) > lb else 0` with `lb` the
    negative offset (21 for the 20-day change, 51 for the 50-day one);
    `close.iloc[-lb]` is `close[len - lb]`. -/
def momentumChange (lb : ℕ) (close : List ℚ) : ℚ :=
  if lb < close.length then
    (close.getLastD 0 - close.getD (close.length - lb) 0) /
      close.getD (close.length - lb) 0 * 100
  else 0

/-- `calculate_technical_indicators(data)` from modules/analysis.py on the
    canonical close column: `{}` (here `none`) exactly when the frame is
    `None`/empty; on a nonempty series no exception occurs (NaN arithmetic
    raises nothing and `iloc[-21]`/`iloc[-51]` are guarded), so the
    dictionary is populated. -/
def calculate_technical_indicators (close : List ℚ) : Option Indicators :=
  match close with
  | [] => none
  | _ :: _ =>
    let cur := close.getLastD 0
    let m20 := lastWindowMean 20 close
    let m50 := lastWindowMean 50 close
    let m200 := lastWindowMean 200 close
    some
      { ma20 := m20
        ma50 := m50
        ma200 := m200
        current_price := cur
        price_vs_ma20 := priceVs cur m20
        price_vs_ma50 := priceVs cur m50
        price_vs_ma200 := priceVs cur m200
        rsi := rsiLast close
        price_change_20d := momentumChange 21 close
        price_change_50d := momentumChange 51 close }

/-- Python `value > c` where `value` may be NaN (`none`): any comparison
    with NaN is `False`. -/
def gtO (x : Option ℚ) (c : ℚ) : Bool :=
  match x with
  | some v => decide (c < v)
  | none => false

/-- Python `value < c` where `value` may be NaN (`none`). -/
def ltO (x : Option ℚ) (c : ℚ) : Bool :=
  match x with
  | some v => decide (v < c)
  | none => false

/-- Python `needle in haystack` on strings, as character lists. -/
def containsSub (pat : List Char) : List Char → Bool
  | [] => pat.isEmpty
  | c :: rest => pat.isPrefixOf (c :: rest) || containsSub pat rest

/-- Performance bucket of `generate_investment_insights` (lines 179-186):
    an if/elif/elif/else ladder on `percent_return`, so exactly one of
    four messages is always chosen. -/
def perfMsg (p : ℚ) : String :=
  if 20 < p then
    "🟢 **Strong Performance**: This investment has delivered exceptional returns above 20%."
  else if 10 < p then
    "🟡 **Good Performance**: Solid returns above 10%, beating most savings accounts."
  else if 0 < p then
    "🟡 **Positive Returns**: Modest gains, but still outperforming cash."
  else
    "🔴 **Negative Returns**: This investment has declined in value."

/-- Volatility bucket (lines 189-194), on the squared volatility: the
    code's `volatility` is nonnegative (or NaN), so `volatility > 40`
    iff `volatility_sq > 1600` and `volatility > 25` iff
    `volatility_sq > 625`; a NaN volatility fails both tests and falls
    to the unconditional else branch, as in Python. -/
def volMsg (vsq : Option ℚ) : String :=
  if gtO vsq 1600 then
    "⚠️ **High Volatility**: This stock shows significant price swings. Consider position sizing."
  else if gtO vsq 625 then
    "🟡 **Moderate Volatility**: Normal price fluctuations for growth stocks."
  else
    "🟢 **Low Volatility**: Relatively stable price movements."

/-- RSI bucket (lines 197-201), active only when the indicator
    dictionary is non-empty; `indicators.get('RSI', 50)` is NaN-tolerant
    (NaN fails both comparisons). -/
def rsiMsgs (ind : Option Indicators) : List String :=
  match ind with
  | none => []
  | some i =>
    if gtO i.rsi 70 then
      ["📈 **Overbought Territory**: RSI above 70 suggests potential pullback ahead."]
    else if ltO i.rsi 30 then
      ["📉 **Oversold Territory**: RSI below 30 suggests potential bounce ahead."]
    else []

/-- Trend bucket (lines 203-206). -/
def trendMsgs (ind : Option Indicators) : List String :=
  match ind with
  | none => []
  | some i =>
    if gtO i.price_vs_ma20 5 then
      ["🔥 **Above Moving Average**: Price is trending above 20-day average."]
    else if ltO i.price_vs_ma20 (-5) then
      ["❄️ **Below Moving Average**: Price is trending below 20-day average."]
    else []

/-- Sector bucket (lines 209-215): case-insensitive substring match. -/
def sectorMsgs (sector : String) : List String :=
  let s := (sector.toLower).data
  if containsSub "technology".data s then
    ["💻 **Tech Sector**: Consider market cycles and innovation trends."]
  else if containsSub "healthcare".data s then
    ["🏥 **Healthcare**: Defensive sector with steady demand."]
  else if containsSub "financial".data s then
    ["🏦 **Financials**: Sensitive to interest rates and economic cycles."]
  else []

/-- Drawdown warning (lines 218-219). -/
def drawdownMsgs (dd : Option ℚ) : List String :=
  if ltO dd (-30) then
    ["⚠️ **High Drawdown**: Maximum decline exceeded 30%. Review risk tolerance."]
  else []

/-- `generate_investment_insights(returns, indicators, stock_info)` from
    modules/analysis.py, on its non-exception path (the `except` branch
    returns the single fallback message).  `indicators = none` models the
    empty dictionary; the sector string is `stock_info.get('sector', '')`. -/
def generate_investment_insights (returns : ReturnResult)
    (indicators : Option Indicators) (sector : String) : List String :=
  perfMsg returns.percent_return ::
    volMsg returns.volatility_sq ::
      (rsiMsgs indicators ++ trendMsgs indicators ++ sectorMsgs sector ++
        drawdownMsgs returns.max_drawdown)

/-- `df[col].rolling(window := k).mean()` at row `i`: the mean of rows
    `i-k+1 .. i`, NaN (`none`) when `i + 1 < k`. -/
def maAt (k : ℕ) (close : List ℚ) (i : ℕ) : Option ℚ :=
  lastWindowMean k (close.take (i + 1))

/-- `calculate_rsi(df[col])` at row `i` (the rolling window ends at `i`). -/
def rsiAt (close : List ℚ) (i : ℕ) : Option ℚ :=
  rsiCombine (lastWindowMean 14 ((gains close).take (i + 1)))
    (lastWindowMean 14 ((losses close).take (i + 1)))

/-- Row `i` survives `df.dropna()`: `MA_7` needs `i ≥ 6`, `MA_21` needs
    `i ≥ 20`, `Price_Change` needs `i ≥ 1`, and `RSI` needs `i ≥ 13` with
    a non-flat window (a flat 14-window gives `0/0 = NaN`). -/
def featDefined (close : List ℚ) (i : ℕ) : Bool :=
  (maAt 7 close i).isSome && (maAt 21 close i).isSome &&
    (rsiAt close i).isSome && decide (1 ≤ i)

/-- Indices of the rows kept by `df.dropna()`, in time order. -/
def usableIdx (close : List ℚ) : List ℕ :=
  (List.range close.length).filter (fun i => featDefined close i)

/-- The shape-relevant fields of the dictionary returned by
    `simple_prediction_model`; `model_name`, `mse` and `accuracy` concern
    only the fitted models and are not referenced by any claim. -/
structure Forecast where
  predictions : List ℚ
  dates : List ℕ
deriving DecidableEq

/-- `X`: the feature matrix `df[['MA_7', 'MA_21', 'RSI']].values` of the
    rows kept by `df.dropna()` (on the kept rows every feature is
    defined, so the `getD 0` defaults are never exercised). -/
def featRows (close : List ℚ) : List (ℚ × ℚ × ℚ) :=
  (usableIdx close).map (fun i =>
    ((maAt 7 close i).getD 0, (maAt 21 close i).getD 0, (rsiAt close i).getD 0))

/-- `last_features = X[-days_ahead:]` under Python slicing: the whole
    matrix when `days_ahead = 0` or `days_ahead ≥ len(X)`, else the
    trailing `days_ahead` rows. -/
def forecastRows (close : List ℚ) (days_ahead : ℕ) : List (ℚ × ℚ × ℚ) :=
  if days_ahead = 0 then featRows close
  else (featRows close).drop ((featRows close).length - days_ahead)

/-- `pd.date_range(start := last_date + 1 day, periods := days_ahead)`
    where `last_date = df.index[-1]` is the date of the last row kept by
    `dropna()` (dates are modelled as day ordinals, index-aligned with
    `close`). -/
def forecastDates (dates : List ℕ) (close : List ℚ) (days_ahead : ℕ) :
    List ℕ :=
  (List.range days_ahead).map
    (fun k => dates.getD ((usableIdx close).getLastD 0) 0 + 1 + k)

/-- `simple_prediction_model(data, days_ahead)` from modules/analysis.py.
    The fitted scikit-learn regressor is abstracted as the row-wise
    function `predict`: model fitting, feature scaling and MSE-based
    model selection determine only which function is applied, never the
    shape of its output, which is one prediction per input row.
    `ML_AVAILABLE` is assumed true. -/
def simple_prediction_model (predict : ℚ × ℚ × ℚ → ℚ) (dates : List ℕ)
    (close : List ℚ) (days_ahead : ℕ) : Option Forecast :=
  if close.length < 30 then none
  else if (usableIdx close).length < 10 then none
  else
    some
      { predictions := (forecastRows close days_ahead).map predict
        dates := forecastDates dates close days_ahead }

/-- Modelled from the spec: the sample (n-1) variance of the spec
    sentence "volatility_annualized_pct = stddev(r) * sqrt(252) * 100,
    using the sample (n-1) standard deviation", written in the textbook
    computational form (n * sum of squares - square of sum) over
    n * (n-1), to be compared with the pandas pipeline of the code. -/
def specSampleVariance (xs : List ℚ) : ℚ :=
  ((xs.length : ℚ) * (xs.map (fun x => x ^ 2)).sum - xs.sum ^ 2) /
    ((xs.length : ℚ) * ((xs.length : ℚ) - 1))

theorem dailyReturns_length (close : List ℚ) :
    (dailyReturns close).length = close.length - 1 := by
  cases close with
  | nil => rfl
  | cons c rest =>
    simp [dailyReturns, List.length_zipWith]

theorem dailyReturns_replicate (n : ℕ) (c : ℚ) (hc : c ≠ 0) :
    dailyReturns (List.replicate n c) = List.replicate (n - 1) 0 := by
  rw [dailyReturns, List.tail_replicate, List.zipWith_replicate]
  have : c / c - 1 = 0 := by rw [div_self hc]; ring
  rw [this]
  congr 1
  omega

theorem sampleVar_replicate_zero (m : ℕ) (h : 2 ≤ m) :
    sampleVar (List.replicate m 0) = some 0 := by
  rw [sampleVar, if_neg (by simp; omega)]
  simp

theorem sum_map_sq_dev (m : ℚ) (xs : List ℚ) :
    (xs.map (fun x => (x - m) ^ 2)).sum =
      (xs.map (fun x => x ^ 2)).sum - 2 * m * xs.sum +
        (xs.length : ℚ) * m ^ 2 := by
  induction xs with
  | nil => simp
  | cons y ys ih =>
    simp only [List.map_cons, List.sum_cons, List.length_cons, ih]
    push_cast
    ring

theorem sampleVar_eq_spec (xs : List ℚ) (h : 2 ≤ xs.length) :
    sampleVar xs = some (specSampleVariance xs) := by
  have hn : (2 : ℚ) ≤ (xs.length : ℚ) := by exact_mod_cast h
  have h0 : (xs.length : ℚ) ≠ 0 := by linarith
  have h1 : (xs.length : ℚ) - 1 ≠ 0 := by
    intro hcontra
    have : (xs.length : ℚ) = 1 := by linarith
    linarith
  rw [sampleVar, if_neg (by omega)]
  show some ((xs.map (fun x => (x - xs.sum / (xs.length : ℚ)) ^ 2)).sum /
      ((xs.length : ℚ) - 1)) = _
  rw [specSampleVariance]
  congr 1
  rw [sum_map_sq_dev]
  field_simp
  ring

/-- C1: the spec says any series with fewer than 2 records yields the
    no-result outcome, but the code only tests `data.empty`: a series of
    exactly 1 record flows through the `try` block and returns a
    populated dictionary (with NaN volatility and NaN max drawdown, since
    no daily return exists), so the claim fails at length 1. -/
theorem calculate_returns_single_record_populated :
    (calculate_returns [100] 1000).isSome = true ∧
      ([(100 : ℚ)]).length < 2 := by
  constructor
  · rfl
  · decide

/-- C1 amended: `calculate_returns` returns the no-result value exactly
    when the series is empty; a 1-record series returns a populated
    result whose volatility and max-drawdown fields are NaN. -/
theorem calculate_returns_none_iff_empty :
    (∀ (close : List ℚ) (inv : ℚ),
      calculate_returns close inv = none ↔ close = []) ∧
    (∀ (c inv : ℚ), ∃ r, calculate_returns [c] inv = some r ∧
      r.volatility_sq = none ∧ r.max_drawdown = none ∧
        r.days_invested = 1) := by
  constructor
  · intro close inv
    cases close with
    | nil => simp [calculate_returns]
    | cons c rest => simp [calculate_returns]
  · intro c inv
    exact ⟨_, rfl, rfl, rfl, rfl⟩

/-- C2: the spec demands an `InvalidPrice` failure on a non-positive
    first close, but the code has no such guard: with `close[0] = -1` the
    division raises nothing and a populated result with negative shares
    is returned (with `close[0] = 0` NumPy likewise returns a populated
    result, with infinite shares). -/
theorem negative_first_price_populated :
    (∃ r, calculate_returns [-1, 2] 100 = some r ∧ r.shares = -100) ∧
      (-1 : ℚ) ≤ 0 := by
  refine ⟨⟨_, rfl, ?_⟩, by norm_num⟩
  show (100 : ℚ) / (-1) = -100
  norm_num

/-- C2 amended: `calculate_returns` performs no validation of the first
    close price: for any series whose first close is negative and any
    positive amount it returns a populated result whose shares field is
    `amount / close[0] < 0` rather than any failure outcome. -/
theorem no_invalid_price_guard :
    ∀ (c0 : ℚ) (cs : List ℚ) (inv : ℚ), c0 < 0 → 0 < inv →
      ∃ r, calculate_returns (c0 :: cs) inv = some r ∧
        r.shares = inv / c0 ∧ r.shares < 0 := by
  intro c0 cs inv hc hinv
  exact ⟨_, rfl, rfl, div_neg_of_pos_of_neg hinv hc⟩

theorem no_invalid_price_guard_witness :
    ∃ r, calculate_returns [-1, 2] 100 = some r ∧
      r.shares = 100 / (-1) ∧ r.shares < 0 :=
  no_invalid_price_guard (-1) [2] 100 (by decide) (by decide)

/-- C3: for every series of length at least 2 with positive first close
    and positive investment amount, the populated result satisfies the
    four spec equations exactly (the model is exact rational
    arithmetic): `shares = amount / close[0]`,
    `final_value = shares * close[-1]`,
    `percent_return = (final_value / amount - 1) * 100`, and
    `days_invested = len(series)`. -/
theorem returns_core_formulas :
    ∀ (c0 : ℚ) (cs : List ℚ) (inv : ℚ), cs ≠ [] → 0 < c0 → 0 < inv →
      ∃ r, calculate_returns (c0 :: cs) inv = some r ∧
        r.shares = inv / c0 ∧
        r.final_value = r.shares * (c0 :: cs).getLastD 0 ∧
        r.percent_return = (r.final_value / inv - 1) * 100 ∧
        r.days_invested = (c0 :: cs).length := by
  intro c0 cs inv _ _ _
  exact ⟨_, rfl, rfl, rfl, rfl, rfl⟩

theorem returns_core_formulas_witness :
    ∃ r, calculate_returns [100, 110] 1000 = some r ∧
      r.shares = 1000 / 100 ∧
      r.final_value = r.shares * ([(100 : ℚ), 110]).getLastD 0 ∧
      r.percent_return = (r.final_value / 1000 - 1) * 100 ∧
      r.days_invested = ([(100 : ℚ), 110]).length :=
  returns_core_formulas 100 [110] 1000 (by decide) (by decide) (by decide)

/-- C4: the spec says volatility is 0 when fewer than 2 daily-return
    observations exist, but pandas `Series.std()` with `ddof = 1` on a
    single observation divides by `n - 1 = 0` and yields NaN: a series of
    exactly 2 records produces a NaN volatility field, not 0. -/
theorem volatility_two_records_nan :
    (calculate_returns [1, 2] 100).map (fun r => r.volatility_sq) =
        some none ∧
      ([(1 : ℚ), 2]).length = 2 ∧ some (none : Option ℚ) ≠ some (some 0) := by
  refine ⟨rfl, by decide, by decide⟩

/-- C4 amended: whenever at least 2 daily-return observations exist
    (series length at least 3), the volatility field equals the sample
    (n-1) standard deviation of the daily returns times `sqrt 252` times
    100 (stated on squares: the squared field equals the spec's sample
    variance, in computational form, times `252 * 100 ^ 2`); with fewer
    than 2 observations the field is NaN, not 0. -/
theorem volatility_matches_sample_std :
    (∀ (close : List ℚ) (inv : ℚ), 3 ≤ close.length →
      (∀ x ∈ close, 0 < x) →
      ∃ r, calculate_returns close inv = some r ∧
        r.volatility_sq =
          some (specSampleVariance (dailyReturns close) * 252 * 10000)) ∧
    (∀ (c0 c1 inv : ℚ), ∃ r, calculate_returns [c0, c1] inv = some r ∧
      r.volatility_sq = none) := by
  constructor
  · intro close inv h3 _
    obtain ⟨c0, rest, rfl⟩ : ∃ c0 rest, close = c0 :: rest := by
      cases close with
      | nil => simp at h3
      | cons a b => exact ⟨a, b, rfl⟩
    refine ⟨_, rfl, ?_⟩
    have hlen : 2 ≤ (dailyReturns (c0 :: rest)).length := by
      rw [dailyReturns_length]
      simp only [List.length_cons] at h3 ⊢
      omega
    rw [sampleVar_eq_spec _ hlen]
    rfl
  · intro c0 c1 inv
    exact ⟨_, rfl, rfl⟩

theorem volatility_matches_sample_std_witness :
    (∃ r, calculate_returns [1, 2, 4] 100 = some r ∧
      r.volatility_sq =
        some (specSampleVariance (dailyReturns [1, 2, 4]) * 252 * 10000)) ∧
    (∃ r, calculate_returns [5, 7] 100 = some r ∧
      r.volatility_sq = none) :=
  ⟨volatility_matches_sample_std.1 [1, 2, 4] 100 (by decide) (by decide),
    volatility_matches_sample_std.2 5 7 100⟩

theorem cumprodAux_length (rs : List ℚ) :
    ∀ a : ℚ, (cumprodAux a rs).length = rs.length := by
  induction rs with
  | nil => intro a; rfl
  | cons r rs ih =>
    intro a
    simp [cumprodAux, ih]

theorem cumprodAux_chain (rs : List ℚ) :
    ∀ a : ℚ, 0 < a → (∀ r ∈ rs, 0 ≤ r) →
      List.Chain' (· ≤ ·) (a :: cumprodAux a rs) := by
  induction rs with
  | nil =>
    intro a _ _
    simp [cumprodAux]
  | cons r rs ih =>
    intro a ha hr
    have hr0 : (0 : ℚ) ≤ r := hr r (by simp)
    have h1r : (1 : ℚ) ≤ 1 + r := by linarith
    have ha' : 0 < a * (1 + r) := mul_pos ha (by linarith)
    have hle : a ≤ a * (1 + r) := by
      calc a = a * 1 := by ring
      _ ≤ a * (1 + r) := by
        exact mul_le_mul_of_nonneg_left h1r (le_of_lt ha)
    rw [cumprodAux, List.chain'_cons]
    exact ⟨hle, ih (a * (1 + r)) ha' (fun x hx => hr x (by simp [hx]))⟩

theorem cummaxAux_of_chain (xs : List ℚ) :
    ∀ m : ℚ, List.Chain' (· ≤ ·) (m :: xs) → cummaxAux m xs = xs := by
  induction xs with
  | nil => intro m _; rfl
  | cons y ys ih =>
    intro m hc
    rw [List.chain'_cons] at hc
    rw [cummaxAux, max_eq_right hc.1, ih y hc.2]

theorem cummax_of_chain (xs : List ℚ) (h : List.Chain' (· ≤ ·) xs) :
    cummax xs = xs := by
  cases xs with
  | nil => rfl
  | cons x t =>
    rw [cummax, cummaxAux_of_chain t x h]

theorem zipWith_drawdown_self (xs : List ℚ) :
    List.zipWith (fun c m => (c - m) / m) xs xs =
      List.replicate xs.length 0 := by
  induction xs with
  | nil => rfl
  | cons x t ih =>
    simp only [List.zipWith_cons_cons, ih, List.length_cons,
      List.replicate_succ]
    congr 1
    rw [sub_self, zero_div]

theorem minimumQ_replicate_zero (n : ℕ) (h : 1 ≤ n) :
    minimumQ (List.replicate n 0) = some 0 := by
  obtain ⟨k, rfl⟩ : ∃ k, n = k + 1 := ⟨n - 1, by omega⟩
  rw [List.replicate_succ, minimumQ]
  congr 1
  induction k with
  | zero => rfl
  | succ j ih =>
    rw [List.replicate_succ, List.foldl_cons, min_self]
    exact ih (by omega)

theorem maxDrawdown_zero_of_nonneg (rs : List ℚ) (hne : rs ≠ [])
    (hr : ∀ r ∈ rs, 0 ≤ r) : maxDrawdown rs = some 0 := by
  have hchain : List.Chain' (· ≤ ·) (cumprod rs) :=
    List.Chain'.tail (cumprodAux_chain rs 1 one_pos hr)
  rw [maxDrawdown, drawdowns, cummax_of_chain _ hchain,
    zipWith_drawdown_self]
  have hlen : (cumprod rs).length = rs.length := cumprodAux_length rs 1
  rw [hlen, minimumQ_replicate_zero rs.length
    (by cases rs with | nil => exact absurd rfl hne | cons a b => simp)]
  simp

theorem dailyReturns_nonneg (close : List ℚ) (hp : ∀ x ∈ close, 0 < x)
    (hc : List.Chain' (· ≤ ·) close) :
    ∀ r ∈ dailyReturns close, 0 ≤ r := by
  induction close with
  | nil => intro r hr; simp [dailyReturns] at hr
  | cons a t ih =>
    cases t with
    | nil => intro r hr; simp [dailyReturns] at hr
    | cons b u =>
      intro r hr
      rw [List.chain'_cons] at hc
      have ha : (0 : ℚ) < a := hp a (by simp)
      have hstep : dailyReturns (a :: b :: u) =
          (b / a - 1) :: dailyReturns (b :: u) := rfl
      rw [hstep] at hr
      rcases List.mem_cons.mp hr with hr1 | hr2
      · rw [hr1]
        have : (1 : ℚ) ≤ b / a := (one_le_div ha).mpr hc.1
        linarith
      · exact ih (fun x hx => hp x (by simp [hx])) hc.2 r hr2

/-- C9: the spec says a constant-close series of any length at least 2
    has volatility 0, but at length exactly 2 there is a single
    daily-return observation and pandas sample standard deviation is NaN:
    the volatility field of `[1, 1]` is NaN, not 0. -/
theorem flat_two_records_volatility_nan :
    (calculate_returns (List.replicate 2 (1 : ℚ)) 100).map
        (fun r => r.volatility_sq) = some none ∧
      (List.replicate 2 (1 : ℚ)).length = 2 ∧
      some (none : Option ℚ) ≠ some (some 0) := by
  refine ⟨rfl, by decide, by decide⟩

/-- C9 amended: a constant positive series needs length at least 3 (two
    daily-return observations) for volatility 0; its max drawdown is 0,
    and every positive monotonically non-decreasing series of length at
    least 2 has max drawdown 0 (at length 2 the constant series' max
    drawdown is still 0, only the volatility claim fails). -/
theorem flat_and_monotone_series :
    (∀ (n : ℕ) (c inv : ℚ), 3 ≤ n → 0 < c →
      ∃ r, calculate_returns (List.replicate n c) inv = some r ∧
        r.volatility_sq = some 0 ∧ r.max_drawdown = some 0) ∧
    (∀ (close : List ℚ) (inv : ℚ), 2 ≤ close.length →
      (∀ x ∈ close, 0 < x) → List.Chain' (· ≤ ·) close →
      ∃ r, calculate_returns close inv = some r ∧
        r.max_drawdown = some 0) := by
  have hmono : ∀ (close : List ℚ) (inv : ℚ), 2 ≤ close.length →
      (∀ x ∈ close, 0 < x) → List.Chain' (· ≤ ·) close →
      ∃ r, calculate_returns close inv = some r ∧
        r.max_drawdown = some 0 := by
    intro close inv h2 hp hc
    obtain ⟨c0, rest, rfl⟩ : ∃ c0 rest, close = c0 :: rest := by
      cases close with
      | nil => simp at h2
      | cons a b => exact ⟨a, b, rfl⟩
    refine ⟨_, rfl, ?_⟩
    apply maxDrawdown_zero_of_nonneg
    · have : (dailyReturns (c0 :: rest)).length = rest.length := by
        rw [dailyReturns_length]; simp
      intro habs
      rw [habs] at this
      simp only [List.length_cons] at h2
      simp at this
      omega
    · exact dailyReturns_nonneg _ hp hc
  constructor
  · intro n c inv h3 hcpos
    obtain ⟨k, rfl⟩ : ∃ k, n = k + 1 := ⟨n - 1, by omega⟩
    rw [List.replicate_succ]
    have hback : c :: List.replicate k c = List.replicate (k + 1) c :=
      (List.replicate_succ c k).symm
    have hdr : dailyReturns (c :: List.replicate k c) =
        List.replicate k 0 := by
      rw [hback, dailyReturns_replicate (k + 1) c (ne_of_gt hcpos)]
      norm_num
    refine ⟨_, rfl, ?_, ?_⟩
    · show (sampleVar (dailyReturns (c :: List.replicate k c))).map
          (fun v => v * 252 * 10000) = some 0
      rw [hdr, sampleVar_replicate_zero k (by omega)]
      simp
    · show maxDrawdown (dailyReturns (c :: List.replicate k c)) = some 0
      rw [hdr]
      apply maxDrawdown_zero_of_nonneg
      · intro habs
        have := congrArg List.length habs
        simp at this
        omega
      · intro r hrr
        rw [List.eq_of_mem_replicate hrr]
  · exact hmono

theorem flat_and_monotone_series_witness :
    (∃ r, calculate_returns (List.replicate 3 (1 : ℚ)) 100 = some r ∧
      r.volatility_sq = some 0 ∧ r.max_drawdown = some 0) ∧
    (∃ r, calculate_returns [1, 2] 50 = some r ∧
      r.max_drawdown = some 0) :=
  ⟨flat_and_monotone_series.1 3 1 100 (by decide) (by decide),
    flat_and_monotone_series.2 [1, 2] 50 (by decide) (by decide)
      (by rw [List.chain'_cons]
          exact ⟨by norm_num, List.chain'_singleton _⟩)⟩

theorem gains_nonneg (close : List ℚ) : ∀ x ∈ gains close, 0 ≤ x := by
  intro x hx
  cases close with
  | nil => simp [gains] at hx
  | cons c rest =>
    rw [gains] at hx
    rcases List.mem_cons.mp hx with h | h
    · rw [h]
    · obtain ⟨d, _, rfl⟩ := List.mem_map.mp h
      exact le_max_right d 0

theorem losses_nonneg (close : List ℚ) : ∀ x ∈ losses close, 0 ≤ x := by
  intro x hx
  cases close with
  | nil => simp [losses] at hx
  | cons c rest =>
    rw [losses] at hx
    rcases List.mem_cons.mp hx with h | h
    · rw [h]
    · obtain ⟨d, _, rfl⟩ := List.mem_map.mp h
      exact le_max_right (-d) 0

theorem lastWindowMean_nonneg (k : ℕ) (xs : List ℚ) (g : ℚ)
    (hx : ∀ x ∈ xs, 0 ≤ x) (h : lastWindowMean k xs = some g) : 0 ≤ g := by
  rw [lastWindowMean] at h
  by_cases hk : k ≤ xs.length
  · rw [if_pos hk] at h
    injection h with h
    rw [← h]
    apply div_nonneg
    · exact List.sum_nonneg (fun y hy => hx y (List.mem_of_mem_drop hy))
    · exact Nat.cast_nonneg k
  · rw [if_neg hk] at h
    exact absurd h (by simp)

/-- C6: the spec says RSI lies in `[0, 100]` for every finite series of
    length at least 15 and that the division is guarded, but the code
    computes `rs = gain / loss` with no guard: on a constant series both
    rolling means are 0, `rs = 0/0 = NaN`, and the reported RSI indicator
    is NaN — not a number in `[0, 100]`. -/
theorem rsi_flat_window_nan :
    (calculate_technical_indicators
        [1, 1, 1, 1, 1, 1, 1, 1, 1, 1, 1, 1, 1, 1, 1]).map
        (fun i => i.rsi) = some none ∧
      ([(1 : ℚ), 1, 1, 1, 1, 1, 1, 1, 1, 1, 1, 1, 1, 1, 1]).length = 15 := by
  constructor
  · norm_num [calculate_technical_indicators, rsiLast, rsiCombine, avgGain,
      avgLoss, lastWindowMean, gains, losses, deltas, max_def]
  · decide

/-- C6 amended: for a series of length at least 15 whose trailing
    14-window is not entirely flat (the 14-period average gain and
    average loss are not both zero), the reported RSI is a number in
    `[0, 100]`, and it equals 100 whenever the average loss is 0 (the
    saturation happens through float infinity, not an explicit guard);
    when the window is entirely flat the RSI is NaN. -/
theorem rsi_reported_in_range :
    ∀ (close : List ℚ) (g l : ℚ), 15 ≤ close.length →
      avgGain close = some g → avgLoss close = some l →
      ¬(g = 0 ∧ l = 0) →
      ∃ ind, calculate_technical_indicators close = some ind ∧
        ∃ r, ind.rsi = some r ∧ 0 ≤ r ∧ r ≤ 100 ∧ (l = 0 → r = 100) := by
  intro close g l h15 hg hl hnb
  obtain ⟨c0, rest, rfl⟩ : ∃ c0 rest, close = c0 :: rest := by
    cases close with
    | nil => simp at h15
    | cons a b => exact ⟨a, b, rfl⟩
  refine ⟨_, rfl, ?_⟩
  show ∃ r, rsiLast (c0 :: rest) = some r ∧ 0 ≤ r ∧ r ≤ 100 ∧
    (l = 0 → r = 100)
  rw [rsiLast, hg, hl]
  have hg0 : 0 ≤ g := lastWindowMean_nonneg _ _ _ (gains_nonneg _) hg
  have hl0 : 0 ≤ l := lastWindowMean_nonneg _ _ _ (losses_nonneg _) hl
  by_cases hlz : l = 0
  · have hgz : g ≠ 0 := fun h => hnb ⟨h, hlz⟩
    simp only [rsiCombine, if_pos hlz, if_neg hgz]
    exact ⟨100, rfl, by norm_num, by norm_num, fun _ => rfl⟩
  · simp only [rsiCombine, if_neg hlz]
    have hlpos : 0 < l := lt_of_le_of_ne hl0 (Ne.symm hlz)
    have hq0 : 0 ≤ g / l := div_nonneg hg0 (le_of_lt hlpos)
    have hqpos : 0 < 100 / (1 + g / l) :=
      div_pos (by norm_num) (by linarith)
    have hqle : 100 / (1 + g / l) ≤ 100 :=
      div_le_self (by norm_num) (by linarith)
    exact ⟨_, rfl, by linarith, by linarith, fun h => absurd h hlz⟩

theorem rsi_reported_in_range_witness :
    ∃ ind, calculate_technical_indicators
        [1, 2, 3, 4, 5, 6, 7, 8, 9, 10, 11, 12, 13, 14, 15] = some ind ∧
      ∃ r, ind.rsi = some r ∧ 0 ≤ r ∧ r ≤ 100 ∧ ((0 : ℚ) = 0 → r = 100) :=
  rsi_reported_in_range [1, 2, 3, 4, 5, 6, 7, 8, 9, 10, 11, 12, 13, 14, 15]
    1 0 (by decide)
    (by norm_num [avgGain, lastWindowMean, gains, deltas, max_def])
    (by norm_num [avgLoss, lastWindowMean, losses, deltas, max_def])
    (by norm_num)

/-- C7: the spec says `price_vs_ma20` is 0 when `MA_20` is undefined,
    but Python's `bool(NaN)` is `True`: for a series shorter than 20
    records the ternary guard takes the formula branch and the reported
    value is NaN, not 0. -/
theorem price_vs_ma_undefined_nan :
    (calculate_technical_indicators [1, 2, 3]).map
        (fun i => i.price_vs_ma20) = some none ∧
      some (none : Option ℚ) ≠ some (some (0 : ℚ)) := by
  constructor
  · rfl
  · decide

/-- C7 amended: when `MA_k` is defined, `price_vs_MA_k` is 0 if `MA_k`
    is exactly zero and `(current_close - MA_k) / MA_k * 100` otherwise;
    when `MA_k` is undefined (series shorter than `k`), the reported
    value is NaN rather than 0, for each of k = 20, 50, 200. -/
theorem price_vs_ma_rules :
    ∀ (close : List ℚ), close ≠ [] →
      ∃ ind, calculate_technical_indicators close = some ind ∧
        ((ind.ma20 = none → ind.price_vs_ma20 = none) ∧
          ∀ m : ℚ, ind.ma20 = some m → ind.price_vs_ma20 =
            if m = 0 then some 0
            else some ((ind.current_price - m) / m * 100)) ∧
        ((ind.ma50 = none → ind.price_vs_ma50 = none) ∧
          ∀ m : ℚ, ind.ma50 = some m → ind.price_vs_ma50 =
            if m = 0 then some 0
            else some ((ind.current_price - m) / m * 100)) ∧
        ((ind.ma200 = none → ind.price_vs_ma200 = none) ∧
          ∀ m : ℚ, ind.ma200 = some m → ind.price_vs_ma200 =
            if m = 0 then some 0
            else some ((ind.current_price - m) / m * 100)) := by
  intro close hne
  obtain ⟨c0, rest, rfl⟩ : ∃ c0 rest, close = c0 :: rest := by
    cases close with
    | nil => exact absurd rfl hne
    | cons a b => exact ⟨a, b, rfl⟩
  refine ⟨_, rfl, ?_⟩
  dsimp only
  refine ⟨⟨?_, ?_⟩, ⟨?_, ?_⟩, ⟨?_, ?_⟩⟩
  · intro h
    rw [h]
    rfl
  · intro m h
    rw [h]
    rfl
  · intro h
    rw [h]
    rfl
  · intro m h
    rw [h]
    rfl
  · intro h
    rw [h]
    rfl
  · intro m h
    rw [h]
    rfl

theorem price_vs_ma_rules_witness :
    ∃ ind, calculate_technical_indicators [5, 6] = some ind ∧
      ((ind.ma20 = none → ind.price_vs_ma20 = none) ∧
        ∀ m : ℚ, ind.ma20 = some m → ind.price_vs_ma20 =
          if m = 0 then some 0
          else some ((ind.current_price - m) / m * 100)) ∧
      ((ind.ma50 = none → ind.price_vs_ma50 = none) ∧
        ∀ m : ℚ, ind.ma50 = some m → ind.price_vs_ma50 =
          if m = 0 then some 0
          else some ((ind.current_price - m) / m * 100)) ∧
      ((ind.ma200 = none → ind.price_vs_ma200 = none) ∧
        ∀ m : ℚ, ind.ma200 = some m → ind.price_vs_ma200 =
          if m = 0 then some 0
          else some ((ind.current_price - m) / m * 100)) :=
  price_vs_ma_rules [5, 6] (by decide)

/-- C8: the spec says the 20-day momentum applies whenever the series
    has at least 21 records, but the code tests `len(data) > 21`: at
    exactly 21 records (where `close.iloc[-21]` exists and the formula
    gives 100 for this input) the code reports 0. -/
theorem momentum_at_21_records_zero :
    (calculate_technical_indicators
        [1, 1, 1, 1, 1, 1, 1, 1, 1, 1, 1, 1, 1, 1, 1, 1, 1, 1, 1, 1, 2]).map
        (fun i => i.price_change_20d) = some 0 ∧
      ([(1 : ℚ), 1, 1, 1, 1, 1, 1, 1, 1, 1, 1, 1, 1, 1, 1, 1, 1, 1, 1, 1,
        2]).length = 21 ∧
      ((2 : ℚ) - 1) / 1 * 100 ≠ 0 := by
  refine ⟨rfl, by decide, by norm_num⟩

/-- C8 amended: the 20-day momentum equals the percent change from
    `close[-21]` only when the series has at least 22 records
    (`len > 21`) and is 0 when the length is at most 21; likewise the
    50-day momentum needs at least 52 records (`len > 51`). -/
theorem momentum_thresholds :
    (∀ (close : List ℚ), 22 ≤ close.length →
      ∃ ind, calculate_technical_indicators close = some ind ∧
        ind.price_change_20d =
          (close.getLastD 0 - close.getD (close.length - 21) 0) /
            close.getD (close.length - 21) 0 * 100) ∧
    (∀ (close : List ℚ), close ≠ [] → close.length ≤ 21 →
      ∃ ind, calculate_technical_indicators close = some ind ∧
        ind.price_change_20d = 0) ∧
    (∀ (close : List ℚ), 52 ≤ close.length →
      ∃ ind, calculate_technical_indicators close = some ind ∧
        ind.price_change_50d =
          (close.getLastD 0 - close.getD (close.length - 51) 0) /
            close.getD (close.length - 51) 0 * 100) ∧
    (∀ (close : List ℚ), close ≠ [] → close.length ≤ 51 →
      ∃ ind, calculate_technical_indicators close = some ind ∧
        ind.price_change_50d = 0) := by
  refine ⟨?_, ?_, ?_, ?_⟩
  · intro close h22
    obtain ⟨c0, rest, rfl⟩ : ∃ c0 rest, close = c0 :: rest := by
      cases close with
      | nil => simp at h22
      | cons a b => exact ⟨a, b, rfl⟩
    refine ⟨_, rfl, ?_⟩
    show momentumChange 21 (c0 :: rest) = _
    rw [momentumChange, if_pos (by omega)]
  · intro close hne h21
    obtain ⟨c0, rest, rfl⟩ : ∃ c0 rest, close = c0 :: rest := by
      cases close with
      | nil => exact absurd rfl hne
      | cons a b => exact ⟨a, b, rfl⟩
    refine ⟨_, rfl, ?_⟩
    show momentumChange 21 (c0 :: rest) = 0
    rw [momentumChange, if_neg (by omega)]
  · intro close h52
    obtain ⟨c0, rest, rfl⟩ : ∃ c0 rest, close = c0 :: rest := by
      cases close with
      | nil => simp at h52
      | cons a b => exact ⟨a, b, rfl⟩
    refine ⟨_, rfl, ?_⟩
    show momentumChange 51 (c0 :: rest) = _
    rw [momentumChange, if_pos (by omega)]
  · intro close hne h51
    obtain ⟨c0, rest, rfl⟩ : ∃ c0 rest, close = c0 :: rest := by
      cases close with
      | nil => exact absurd rfl hne
      | cons a b => exact ⟨a, b, rfl⟩
    refine ⟨_, rfl, ?_⟩
    show momentumChange 51 (c0 :: rest) = 0
    rw [momentumChange, if_neg (by omega)]

theorem momentum_thresholds_witness :
    (∃ ind, calculate_technical_indicators (List.replicate 52 (3 : ℚ)) =
        some ind ∧
      ind.price_change_20d =
        ((List.replicate 52 (3 : ℚ)).getLastD 0 -
            (List.replicate 52 (3 : ℚ)).getD
              ((List.replicate 52 (3 : ℚ)).length - 21) 0) /
          (List.replicate 52 (3 : ℚ)).getD
            ((List.replicate 52 (3 : ℚ)).length - 21) 0 * 100) ∧
    (∃ ind, calculate_technical_indicators [5] = some ind ∧
      ind.price_change_20d = 0) ∧
    (∃ ind, calculate_technical_indicators (List.replicate 52 (3 : ℚ)) =
        some ind ∧
      ind.price_change_50d =
        ((List.replicate 52 (3 : ℚ)).getLastD 0 -
            (List.replicate 52 (3 : ℚ)).getD
              ((List.replicate 52 (3 : ℚ)).length - 51) 0) /
          (List.replicate 52 (3 : ℚ)).getD
            ((List.replicate 52 (3 : ℚ)).length - 51) 0 * 100) ∧
    (∃ ind, calculate_technical_indicators [7] = some ind ∧
      ind.price_change_50d = 0) :=
  ⟨momentum_thresholds.1 (List.replicate 52 3) (by decide),
    momentum_thresholds.2.1 [5] (by decide) (by decide),
    momentum_thresholds.2.2.1 (List.replicate 52 3) (by decide),
    momentum_thresholds.2.2.2 [7] (by decide) (by decide)⟩

/-- C10: on the non-exception path `generate_investment_insights` always
    returns a list of at least two messages: the first is the
    performance bucket (an if/elif/elif/else ladder, so one of exactly
    four messages) and the second is the volatility bucket (one of
    exactly three); in particular the list is never empty (the exception
    path returns a one-element fallback). -/
theorem insights_structure :
    ∀ (returns : ReturnResult) (indicators : Option Indicators)
      (sector : String),
      2 ≤ (generate_investment_insights returns indicators sector).length ∧
      (generate_investment_insights returns indicators sector).get? 0 =
        some (perfMsg returns.percent_return) ∧
      (generate_investment_insights returns indicators sector).get? 1 =
        some (volMsg returns.volatility_sq) ∧
      (perfMsg returns.percent_return =
          "🟢 **Strong Performance**: This investment has delivered exceptional returns above 20%." ∨
        perfMsg returns.percent_return =
          "🟡 **Good Performance**: Solid returns above 10%, beating most savings accounts." ∨
        perfMsg returns.percent_return =
          "🟡 **Positive Returns**: Modest gains, but still outperforming cash." ∨
        perfMsg returns.percent_return =
          "🔴 **Negative Returns**: This investment has declined in value.") ∧
      (volMsg returns.volatility_sq =
          "⚠️ **High Volatility**: This stock shows significant price swings. Consider position sizing." ∨
        volMsg returns.volatility_sq =
          "🟡 **Moderate Volatility**: Normal price fluctuations for growth stocks." ∨
        volMsg returns.volatility_sq =
          "🟢 **Low Volatility**: Relatively stable price movements.") ∧
      generate_investment_insights returns indicators sector ≠ [] := by
  intro r ind s
  refine ⟨?_, rfl, rfl, ?_, ?_, ?_⟩
  · show 2 ≤ (perfMsg r.percent_return :: volMsg r.volatility_sq :: _).length
    simp only [List.length_cons]
    omega
  · unfold perfMsg
    split
    · exact Or.inl rfl
    · split
      · exact Or.inr (Or.inl rfl)
      · split
        · exact Or.inr (Or.inr (Or.inl rfl))
        · exact Or.inr (Or.inr (Or.inr rfl))
  · unfold volMsg
    split
    · exact Or.inl rfl
    · split
      · exact Or.inr (Or.inl rfl)
      · exact Or.inr (Or.inr rfl)
  · show perfMsg r.percent_return :: volMsg r.volatility_sq :: _ ≠ []
    simp

theorem deltas_pos (close : List ℚ) (hc : List.Chain' (· < ·) close) :
    ∀ d ∈ deltas close, 0 < d := by
  induction close with
  | nil => intro d hd; simp [deltas] at hd
  | cons a t ih =>
    cases t with
    | nil => intro d hd; simp [deltas] at hd
    | cons b u =>
      intro d hd
      rw [List.chain'_cons] at hc
      have hstep : deltas (a :: b :: u) = (b - a) :: deltas (b :: u) := rfl
      rw [hstep] at hd
      rcases List.mem_cons.mp hd with h1 | h2
      · rw [h1]
        linarith [hc.1]
      · exact ih hc.2 d h2

theorem gains_length (close : List ℚ) :
    (gains close).length = close.length := by
  cases close with
  | nil => rfl
  | cons c rest =>
    rw [gains]
    simp [deltas, List.length_zipWith]

theorem losses_length (close : List ℚ) :
    (losses close).length = close.length := by
  cases close with
  | nil => rfl
  | cons c rest =>
    rw [losses]
    simp [deltas, List.length_zipWith]

theorem lastWindowMean_pos (k : ℕ) (xs : List ℚ) (g : ℚ) (hk : 1 ≤ k)
    (hkx : k ≤ xs.length)
    (hx : ∀ x ∈ xs.drop (xs.length - k), 0 < x)
    (h : lastWindowMean k xs = some g) : 0 < g := by
  rw [lastWindowMean, if_pos hkx] at h
  injection h with h
  rw [← h]
  apply div_pos
  · apply List.sum_pos _ hx
    apply List.ne_nil_of_length_pos
    rw [List.length_drop]
    omega
  · exact_mod_cast Nat.pos_of_ne_zero (by omega)

theorem gains_window_pos (close : List ℚ) (i : ℕ)
    (hc : List.Chain' (· < ·) close) (h14 : 14 ≤ i)
    (hin : i < close.length) :
    ∀ x ∈ ((gains close).take (i + 1)).drop
        (((gains close).take (i + 1)).length - 14), 0 < x := by
  obtain ⟨c, rest, rfl⟩ : ∃ c rest, close = c :: rest := by
    cases close with
    | nil => simp at hin
    | cons a b => exact ⟨a, b, rfl⟩
  intro x hx
  have hLen : ((gains (c :: rest)).take (i + 1)).length = i + 1 := by
    rw [List.length_take, gains_length]
    simp only [List.length_cons] at hin ⊢
    omega
  rw [hLen] at hx
  have hoff : i + 1 - 14 = (i - 14) + 1 := by omega
  have e1 : (gains (c :: rest)).take (i + 1) =
      0 :: ((deltas (c :: rest)).map (fun d => max d 0)).take i := by
    rw [show gains (c :: rest) =
      0 :: (deltas (c :: rest)).map (fun d => max d 0) from rfl,
      List.take_succ_cons]
  rw [hoff, e1, List.drop_succ_cons] at hx
  have hx2 : x ∈ (deltas (c :: rest)).map (fun d => max d 0) :=
    List.mem_of_mem_take (List.mem_of_mem_drop hx)
  obtain ⟨d, hd, rfl⟩ := List.mem_map.mp hx2
  exact lt_of_lt_of_le (deltas_pos _ hc d hd) (le_max_left d 0)

theorem rsiAt_isSome_of_chain (close : List ℚ) (i : ℕ)
    (hc : List.Chain' (· < ·) close) (h14 : 14 ≤ i)
    (hin : i < close.length) : (rsiAt close i).isSome = true := by
  have htg : 14 ≤ ((gains close).take (i + 1)).length := by
    rw [List.length_take, gains_length]
    omega
  have htl : 14 ≤ ((losses close).take (i + 1)).length := by
    rw [List.length_take, losses_length]
    omega
  obtain ⟨g, hg⟩ : ∃ g,
      lastWindowMean 14 ((gains close).take (i + 1)) = some g := by
    rw [lastWindowMean, if_pos htg]
    exact ⟨_, rfl⟩
  obtain ⟨l, hl⟩ : ∃ l,
      lastWindowMean 14 ((losses close).take (i + 1)) = some l := by
    rw [lastWindowMean, if_pos htl]
    exact ⟨_, rfl⟩
  have hgpos : 0 < g :=
    lastWindowMean_pos 14 _ g (by omega) htg
      (gains_window_pos close i hc h14 hin) hg
  rw [rsiAt, hg, hl]
  simp only [rsiCombine]
  by_cases hl0 : l = 0
  · rw [if_pos hl0, if_neg (ne_of_gt hgpos)]
    rfl
  · rw [if_neg hl0]
    rfl

theorem maAt_isSome (k : ℕ) (close : List ℚ) (i : ℕ) (h1 : k ≤ i + 1)
    (h2 : k ≤ close.length) : (maAt k close i).isSome = true := by
  rw [maAt, lastWindowMean, if_pos (by rw [List.length_take]; omega)]
  rfl

theorem maAt_none (k : ℕ) (close : List ℚ) (i : ℕ) (h1 : i + 1 < k)
    (h2 : i < close.length) : maAt k close i = none := by
  rw [maAt, lastWindowMean, if_neg (by rw [List.length_take]; omega)]

theorem featDefined_eq_of_chain (close : List ℚ) (i : ℕ)
    (hc : List.Chain' (· < ·) close) (h21 : 21 ≤ close.length)
    (hin : i < close.length) : featDefined close i = decide (20 ≤ i) := by
  by_cases h20 : 20 ≤ i
  · have h1 : 1 ≤ i := by omega
    rw [featDefined,
      maAt_isSome 7 close i (by omega) (by omega),
      maAt_isSome 21 close i (by omega) (by omega),
      rsiAt_isSome_of_chain close i hc (by omega) hin]
    simp [h20, h1]
  · rw [featDefined, maAt_none 21 close i (by omega) hin]
    simp [h20]

theorem usableIdx_of_chain (close : List ℚ)
    (hc : List.Chain' (· < ·) close) (h21 : 21 ≤ close.length) :
    usableIdx close =
      (List.range close.length).filter (fun i => decide (20 ≤ i)) := by
  rw [usableIdx]
  apply List.filter_congr
  intro i hi
  rw [List.mem_range] at hi
  exact featDefined_eq_of_chain close i hc h21 hi

theorem filter_range_getLastD (n : ℕ) (p : ℕ → Bool) (hn : 1 ≤ n)
    (hp : p (n - 1) = true) :
    ((List.range n).filter p).getLastD 0 = n - 1 := by
  obtain ⟨m, rfl⟩ : ∃ m, n = m + 1 := ⟨n - 1, by omega⟩
  have hm : p m = true := by simpa using hp
  rw [List.range_succ, List.filter_append]
  have hfm : List.filter p [m] = [m] := by
    simp [List.filter, hm]
  rw [hfm, List.getLastD_eq_getLast?, List.getLast?_concat]
  simp

/-- The 30-record strictly increasing synthetic series 1, 2, ..., 30. -/
def close30 : List ℚ :=
  [1, 2, 3, 4, 5, 6, 7, 8, 9, 10, 11, 12, 13, 14, 15, 16, 17, 18, 19, 20,
    21, 22, 23, 24, 25, 26, 27, 28, 29, 30]

theorem close30_chain : List.Chain' (· < ·) close30 := by
  norm_num [close30, List.chain'_cons]

theorem close30_length : close30.length = 30 := by
  rw [close30]
  rfl

theorem usableIdx_close30 :
    usableIdx close30 = [20, 21, 22, 23, 24, 25, 26, 27, 28, 29] := by
  rw [usableIdx_of_chain close30 close30_chain (by rw [close30_length]; omega),
    close30_length]
  decide

/-- C5: `last_features = X[-days_ahead:]` silently truncates: a series
    of exactly 30 records has exactly 10 usable feature rows, so with
    `days_ahead = 11` (which satisfies every stated precondition) the
    returned predictions have only 10 entries while the dates have 11 —
    the two sequences are not of equal length `days_ahead`. -/
theorem forecast_length_mismatch :
    (simple_prediction_model (fun _ => 0) (List.range 30) close30 11).map
        (fun f => (f.predictions.length, f.dates.length)) =
      some (10, 11) ∧
      (10 : ℕ) ≠ 11 ∧ 30 ≤ close30.length ∧
      10 ≤ (usableIdx close30).length ∧ (1 : ℕ) ≤ 11 := by
  have hu := usableIdx_close30
  have hlen := close30_length
  refine ⟨?_, by decide, by rw [hlen], by rw [hu]; decide, by decide⟩
  have h1 : ((forecastRows close30 11).map
      (fun _ => (0 : ℚ))).length = 10 := by
    rw [List.length_map, forecastRows, if_neg (by omega), List.length_drop,
      featRows, List.length_map, hu]
    decide
  have h2 : (forecastDates (List.range 30) close30 11).length = 11 := by
    rw [forecastDates, List.length_map, List.length_range]
  rw [simple_prediction_model, if_neg (by rw [hlen]; omega),
    if_neg (by rw [hu]; decide)]
  simp only [Option.map_some']
  rw [h1, h2]

/-- C5 amended: when additionally `days_ahead` is at most the number of
    usable feature rows and the final record survives feature
    derivation, the forecast returns predictions and dates of equal
    length `days_ahead`, the dates being the `days_ahead` consecutive
    day ordinals starting the day after the series' last date (hence
    strictly increasing); when `days_ahead` exceeds the usable rows the
    predictions are silently truncated to the usable-row count while the
    dates keep length `days_ahead`. -/
theorem forecast_shape :
    ∀ (predict : ℚ × ℚ × ℚ → ℚ) (dates : List ℕ) (close : List ℚ)
      (days_ahead : ℕ),
      30 ≤ close.length → 10 ≤ (usableIdx close).length →
      1 ≤ days_ahead → days_ahead ≤ (usableIdx close).length →
      featDefined close (close.length - 1) = true →
      ∃ f, simple_prediction_model predict dates close days_ahead =
          some f ∧
        f.predictions.length = days_ahead ∧
        f.dates.length = days_ahead ∧
        f.dates = (List.range days_ahead).map
          (fun k => dates.getD (close.length - 1) 0 + 1 + k) ∧
        List.Pairwise (· < ·) f.dates := by
  intro predict dates close d h30 h10 hd1 hdle hlast
  rw [simple_prediction_model, if_neg (by omega), if_neg (by omega)]
  refine ⟨_, rfl, ?_, ?_, ?_, ?_⟩
  · dsimp only
    rw [forecastRows, if_neg (by omega), List.length_map, List.length_drop,
      featRows, List.length_map]
    omega
  · dsimp only
    rw [forecastDates, List.length_map, List.length_range]
  · dsimp only
    rw [forecastDates, usableIdx,
      filter_range_getLastD close.length _ (by omega) hlast]
  · dsimp only
    rw [forecastDates]
    exact List.Pairwise.map _ (fun a b h => by omega)
      (List.pairwise_lt_range d)

theorem forecast_shape_witness :
    ∃ f, simple_prediction_model (fun _ => (0 : ℚ)) (List.range 30)
        close30 7 = some f ∧
      f.predictions.length = 7 ∧
      f.dates.length = 7 ∧
      f.dates = (List.range 7).map
        (fun k => (List.range 30).getD (close30.length - 1) 0 + 1 + k) ∧
      List.Pairwise (· < ·) f.dates :=
  forecast_shape _ _ _ _ (by rw [close30_length])
    (by rw [usableIdx_close30]; decide) (by decide)
    (by rw [usableIdx_close30]; decide)
    (by rw [show close30.length - 1 = 29 from by rw [close30_length],
          featDefined_eq_of_chain close30 29 close30_chain
            (by rw [close30_length]; omega) (by rw [close30_length]; omega)]
        decide)

end Simvestor
